import Mathlib

/-!
Verification of the team-balancer engine (src/teamBalancer.js).

The JavaScript module is shallowly embedded: JS numbers that only ever hold
integers become Int or Nat, JS floating-point arithmetic in the scoring
function becomes exact rational arithmetic (the fraction type Q below,
interpreted into Rat for the order-theoretic statements), JS exceptions
become an Except with an explicit error type, and the two Math.random
based shuffles are a function parameter of the strategies that use them.
-/

namespace TeamBalancer

/-- Default tier scores, as the association of the 9 tier labels of
DEFAULT_TIER_SCORES in source order. A JS object lookup of a missing key
yields undefined; the model returns none. -/
def DEFAULT_TIER_SCORES : List (String × Int) :=
  [("S+", 13), ("S", 10), ("S/A", 9), ("A", 8), ("A/B", 7),
   ("B", 5), ("C", 2), ("D", 0), ("F", -1)]

/-- The fixed tier enumeration DEFAULT_TIER_ORDER, best to worst. -/
def DEFAULT_TIER_ORDER : List String :=
  ["S+", "S", "S/A", "A", "A/B", "B", "C", "D", "F"]

/-- Lookup of a tier label in a tier-score table (JS object indexing). -/
def lookupTier (table : List (String × Int)) (tier : String) : Option Int :=
  (table.find? (fun kv => kv.1 == tier)).map (fun kv => kv.2)

/-- A player record: name, tier, score and captain flag, the four fields the
Player class carries. -/
structure Player where
  name : String
  tier : String
  score : Int
  isCaptain : Bool
deriving DecidableEq, Repr

/-- The Player constructor: the score is always the DEFAULT_TIER_SCORES
lookup of the tier, whatever table the caller of the surrounding code was
configured with. The getD 0 default is never exercised by the theorems
below, which only construct players whose tier is a key of the table (for
a tier outside the table JS would store undefined). -/
def mkPlayer (name tier : String) (isCaptain : Bool) : Player :=
  ⟨name, tier, (lookupTier DEFAULT_TIER_SCORES tier).getD 0, isCaptain⟩

/-- Player.prototype.clone: rebuilds the player through the constructor. -/
def Player.clone (p : Player) : Player :=
  mkPlayer p.name p.tier p.isCaptain

/-- The deep copy `teams.map(team => team.map(player => player.clone()))`
the optimizer performs. -/
def cloneTeams (teams : List (List Player)) : List (List Player) :=
  teams.map (fun team => team.map Player.clone)

/-- Exact fraction arithmetic for the score computations. JS evaluates the
scoring formulas in floating point; every quantity involved is a small
rational, and the spec reads the formulas as exact arithmetic, so the
model computes them as exact fractions. Fractions are deliberately kept
unnormalized (no gcd), so that every operation is plain integer
arithmetic the proof kernel evaluates directly; Q.toRat interprets a
fraction as the rational number it denotes. Every fraction the module
builds has a positive denominator (a product of team counts), which the
denominator-positivity lemmas below establish where the order matters. -/
structure Q where
  num : Int
  den : Int
deriving DecidableEq, Repr

/-- The integer n as a fraction. -/
def Q.ofInt (n : Int) : Q := ⟨n, 1⟩

/-- The natural number n as a fraction. -/
def Q.ofNat (n : Nat) : Q := ⟨(n : Int), 1⟩

/-- Fraction addition (unnormalized). -/
def Q.add (a b : Q) : Q := ⟨a.num * b.den + b.num * a.den, a.den * b.den⟩

/-- Fraction subtraction (unnormalized). -/
def Q.sub (a b : Q) : Q := ⟨a.num * b.den - b.num * a.den, a.den * b.den⟩

/-- Fraction multiplication (unnormalized). -/
def Q.mul (a b : Q) : Q := ⟨a.num * b.num, a.den * b.den⟩

/-- Fraction division (unnormalized); only ever applied to divisors that
are positive integers (team counts). -/
def Q.div (a b : Q) : Q := ⟨a.num * b.den, a.den * b.num⟩

/-- The JS reduce((sum, x) => sum + x, 0) over fractions. -/
def Q.sum (l : List Q) : Q := l.foldl Q.add (Q.ofInt 0)

/-- The JS comparison newScore < bestScore, by cross multiplication;
correct for the positive denominators the module produces. -/
def Q.blt (a b : Q) : Bool := a.num * b.den < b.num * a.den

/-- The JS comparison score === 0: a fraction with a nonzero denominator
is zero exactly when its numerator is. -/
def Q.isZero (a : Q) : Bool := a.num = 0

/-- The rational number a fraction denotes. -/
def Q.toRat (a : Q) : Rat := (a.num : Rat) / (a.den : Rat)

/-- Evaluation record returned by evaluateTeams. -/
structure Evaluation where
  strengthVariance : Q
  strengthDiff : Q
  tierImbalance : Q
  score : Q
deriving DecidableEq, Repr

/-- TeamDistribution record returned by createTeamDistribution. -/
structure TeamDistribution where
  name : String
  description : String
  teams : List (List Player)
  strengthVariance : Q
  strengthDiff : Q
  tierImbalance : Q
  score : Q
deriving DecidableEq, Repr

/-- The error conditions the module can raise.  The payloads record the
numbers interpolated into the JS Error messages. typeError stands for the
TypeError JS raises when a property of undefined is read, and
nonTermination marks inputs on which a JS while loop never exits (the
model burns explicit fuel there instead). -/
inductive BalancerError where
  | invalidTeamCount (numTeams : Nat)
  | notEnoughPlayers (totalPlayers numTeams : Nat)
  | notDivisible (totalPlayers numTeams : Nat)
  | captainOverflow (captainCount numTeams : Nat)
  | unknownStrategy (name : String)
  | unevenTeam (size expected : Nat)
  | unevenTeamCluster (size expected : Nat)
  | typeError
  | nonTermination
deriving DecidableEq, Repr

/-- Number of captains in a roster: players.filter(player => player.isCaptain).length. -/
def countCaptains (players : List Player) : Nat :=
  (players.filter (fun p => p.isCaptain)).length

/-- validatePlayerCount: the four checks, in source order, then
Math.floor(totalPlayers / numTeams). -/
def validatePlayerCount (players : List Player) (numTeams : Nat) :
    Except BalancerError Nat :=
  let totalPlayers := players.length
  if numTeams < 2 then
    .error (.invalidTeamCount numTeams)
  else if totalPlayers < numTeams then
    .error (.notEnoughPlayers totalPlayers numTeams)
  else if totalPlayers % numTeams ≠ 0 then
    .error (.notDivisible totalPlayers numTeams)
  else if countCaptains players > numTeams then
    .error (.captainOverflow (countCaptains players) numTeams)
  else
    .ok (totalPlayers / numTeams)

/-- Team strength: sum of member scores (calculateTeamMetrics.totalStrength). -/
def teamStrength (team : List Player) : Int :=
  (team.map (fun p => p.score)).sum

/-- How often a tier label occurs in a team (calculateTeamMetrics.tierCounts
with a missing key read as 0). -/
def tierCount (team : List Player) (tier : String) : Nat :=
  (team.filter (fun p => p.tier == tier)).length

/-- Math.max over a spread array; the model is only applied to non-empty
lists (JS yields -Infinity on an empty one). -/
def jsMax (l : List Int) : Int :=
  match l with
  | [] => 0
  | x :: xs => xs.foldl max x

/-- Math.min over a spread array; same proviso as jsMax. -/
def jsMin (l : List Int) : Int :=
  match l with
  | [] => 0
  | x :: xs => xs.foldl min x

/-- The tier labels evaluateTeams actually iterates over: the JS source
builds `new Set('S+SABCDEF'.split(''))`, i.e. the set of the single
characters of that string in first-occurrence order, not the 9 labels of
DEFAULT_TIER_ORDER. -/
def EVAL_TIER_CHARS : List String :=
  ["S", "+", "A", "B", "C", "D", "E", "F"]

/-- evaluateTeams: strength range, population variance of strengths and the
per-character-tier sum of squared count deviations, combined into the
weighted score. JS float division becomes exact fraction division. -/
def evaluateTeams (teams : List (List Player)) : Evaluation :=
  let strengths : List Int := teams.map teamStrength
  let n : Q := Q.ofNat strengths.length
  let strengthDiff : Q := Q.ofInt (jsMax strengths - jsMin strengths)
  let avgStrength : Q := Q.div (Q.ofInt strengths.sum) n
  let strengthVariance : Q :=
    Q.div (Q.sum (strengths.map (fun s =>
      Q.mul (Q.sub (Q.ofInt s) avgStrength) (Q.sub (Q.ofInt s) avgStrength)))) n
  let tierImbalance : Q :=
    EVAL_TIER_CHARS.foldl (fun acc tier =>
      let counts : List Nat := teams.map (fun t => tierCount t tier)
      if counts.any (fun c => c > 0) then
        let tierAvg : Q := Q.div (Q.ofNat counts.sum) (Q.ofNat counts.length)
        let tierVariance : Q := Q.sum (counts.map (fun c =>
          Q.mul (Q.sub (Q.ofNat c) tierAvg) (Q.sub (Q.ofNat c) tierAvg)))
        Q.add acc tierVariance
      else acc) (Q.ofInt 0)
  let score : Q :=
    Q.add (Q.add (Q.mul strengthVariance (Q.ofInt 2)) tierImbalance)
      (Q.mul strengthDiff (Q.ofInt 10))
  ⟨strengthVariance, strengthDiff, tierImbalance, score⟩

/-- teams[i] := f(teams[i]); all other entries unchanged. An out-of-range
index is a no-op; every embedded run keeps the index in range. -/
def updateAt : List (List Player) → Nat → (List Player → List Player) → List (List Player)
  | [], _, _ => []
  | t :: ts, 0, f => f t :: ts
  | t :: ts, n + 1, f => t :: updateAt ts n f

/-- Stable sort of the non-captain players by descending score, the
JS `sort((a, b) => b.score - a.score)` (stable in every modern engine). -/
def sortByScoreDesc (players : List Player) : List Player :=
  List.insertionSort (fun a b => b.score ≤ a.score) players

/-- Captains are pushed one per team in order; pushing onto teams[index]
for index ≥ numTeams dereferences undefined in JS, hence typeError. -/
def assignCaptains (captains : List Player) (numTeams : Nat) :
    Except BalancerError (List (List Player)) :=
  if captains.length > numTeams then .error .typeError
  else .ok ((List.range numTeams).map (fun i => (captains.drop i).take 1))

/-- The captain-less-team fill loop shared verbatim by the snake and
cluster strategies: walk the team indices once in order, giving each still
empty team the front of the queue while the queue lasts. -/
def fillEmptyTeams (teams : List (List Player)) (queue : List Player)
    (numTeams : Nat) : List (List Player) × List Player :=
  (List.range numTeams).foldl (fun st i =>
    match st.2 with
    | [] => st
    | p :: rest =>
      if (st.1.getD i []).length = 0 then (updateAt st.1 i (fun t => t ++ [p]), rest)
      else st) (teams, queue)

/-- Final size validation each strategy runs; the cluster strategy throws a
message of its own, recorded as a distinct error constructor. -/
def validateSizes (teams : List (List Player)) (ppt : Nat) (cluster : Bool) :
    Except BalancerError (List (List Player)) :=
  match teams.find? (fun t => t.length != ppt) with
  | some t => .error (if cluster then .unevenTeamCluster t.length ppt else .unevenTeam t.length ppt)
  | none => .ok teams

/-- One dealing round shared by the round-robin and snake loops: deal from
the queue along the given team order, skipping teams already at size ppt. -/
def dealRound (teams : List (List Player)) (queue : List Player)
    (order : List Nat) (ppt : Nat) : List (List Player) × List Player :=
  order.foldl (fun st idx =>
    match st.2 with
    | [] => st
    | p :: rest =>
      if (st.1.getD idx []).length ≥ ppt then st
      else (updateAt st.1 idx (fun t => t ++ [p]), rest)) (teams, queue)

/-- Team order of a round-robin dealing round: forward on odd round
numbers, reversed on even ones. -/
def rrTeamIndices (numTeams roundNum : Nat) : List Nat :=
  if roundNum % 2 = 1 then List.range numTeams
  else (List.range numTeams).map (fun i => numTeams - 1 - i)

/-- The round-robin while loop: runs while the queue is non-empty and every
team is below ppt. Each executed round consumes at least one player when
numTeams > 0, so the fuel queue.length + 1 always suffices then; with
numTeams = 0 and a non-empty queue the JS loop never exits, which the model
reports as nonTermination once the fuel is gone. -/
def rrRounds (numTeams ppt : Nat) :
    Nat → Nat → List (List Player) → List Player →
    Except BalancerError (List (List Player))
  | _, _, teams, [] => .ok teams
  | 0, _, _, _ :: _ => .error .nonTermination
  | fuel + 1, roundNum, teams, p :: rest =>
    if teams.all (fun t => t.length < ppt) then
      let st := dealRound teams (p :: rest) (rrTeamIndices numTeams roundNum) ppt
      rrRounds numTeams ppt fuel (roundNum + 1) st.1 st.2
    else .ok teams

/-- distributeTeamsRoundRobin: captains first, then one top player into
each still-empty team, then snake rounds, then the size validation. When
there are fewer non-captains than captain-less teams JS pushes undefined
members and fails later with a TypeError; the model leaves those teams
short so the size validation fails instead — both are internal failures,
and no claim exercises that corner. -/
def distributeTeamsRoundRobin (players : List Player) (numTeams ppt : Nat) :
    Except BalancerError (List (List Player)) :=
  let captains := players.filter (fun p => p.isCaptain)
  let nonCaptains := players.filter (fun p => !p.isCaptain)
  match assignCaptains captains numTeams with
  | .error e => .error e
  | .ok teams =>
    let sorted := sortByScoreDesc nonCaptains
    let emptyCount := numTeams - captains.length
    let topPlayers := sorted.take emptyCount
    let rest := sorted.drop emptyCount
    let teams1 := (List.range numTeams).map (fun i =>
      if i < captains.length then teams.getD i []
      else match (topPlayers.drop (i - captains.length)).head? with
        | some p => teams.getD i [] ++ [p]
        | none => teams.getD i [])
    match rrRounds numTeams ppt (rest.length + 1) 1 teams1 rest with
    | .error e => .error e
    | .ok teams2 => validateSizes teams2 ppt false

/-- The group of a tier inside playersByTier (insertion grouping of a list
is the stable filter by tier). -/
def tierGroup (players : List Player) (tier : String) : List Player :=
  players.filter (fun p => p.tier == tier)

/-- Team order of a pure-snake dealing round: forward on even round
numbers, reversed on odd ones (the first post-fill round is round 1). -/
def snakeTeamIndices (numTeams roundNum : Nat) : List Nat :=
  if roundNum % 2 = 0 then List.range numTeams
  else (List.range numTeams).map (fun i => numTeams - 1 - i)

/-- The snake draft queue: tiers visited in DEFAULT_TIER_ORDER, each
non-empty tier group reordered by the random comparator sort, modelled by
the shuffleFn parameter. -/
def snakeQueue (shuffleFn : List Player → List Player)
    (nonCaptains : List Player) : List Player :=
  DEFAULT_TIER_ORDER.foldl (fun acc tier =>
    let grp := tierGroup nonCaptains tier
    if grp.isEmpty then acc else acc ++ shuffleFn grp) []

/-- The pure-snake while loop: rounds run while the queue is non-empty,
with no guard on team fullness, so when every team is full and players
remain the JS loop never exits; the model reports nonTermination then.
In a feasible run each round consumes at least one player, so the fuel
queue.length + 1 suffices. -/
def snakeRounds (numTeams ppt : Nat) :
    Nat → Nat → List (List Player) → List Player →
    Except BalancerError (List (List Player))
  | _, _, teams, [] => .ok teams
  | 0, _, _, _ :: _ => .error .nonTermination
  | fuel + 1, roundNum, teams, p :: rest =>
    let st := dealRound teams (p :: rest) (snakeTeamIndices numTeams roundNum) ppt
    snakeRounds numTeams ppt fuel (roundNum + 1) st.1 st.2

/-- distributeTeamsSnake: captains, then the tier-ordered queue, the fill
loop, the snake rounds and the size validation. The source also sorts the
non-captains by score into a variable it never reads again; the model
omits that dead computation. -/
def distributeTeamsSnake (shuffleFn : List Player → List Player)
    (players : List Player) (numTeams ppt : Nat) :
    Except BalancerError (List (List Player)) :=
  let captains := players.filter (fun p => p.isCaptain)
  let nonCaptains := players.filter (fun p => !p.isCaptain)
  match assignCaptains captains numTeams with
  | .error e => .error e
  | .ok teams =>
    let queue := snakeQueue shuffleFn nonCaptains
    let st := fillEmptyTeams teams queue numTeams
    match snakeRounds numTeams ppt (st.2.length + 1) 1 st.1 st.2 with
    | .error e => .error e
    | .ok teams2 => validateSizes teams2 ppt false

/-- Chop the sorted remainder into consecutive slices of numTeams players.
With numTeams = 0 the JS for loop never advances; the model burns fuel and
reports nonTermination. -/
def chunksGo (numTeams : Nat) :
    Nat → List Player → Except BalancerError (List (List Player))
  | _, [] => .ok []
  | 0, _ :: _ => .error .nonTermination
  | fuel + 1, c :: rest =>
    match chunksGo numTeams fuel ((c :: rest).drop numTeams) with
    | .error e => .error e
    | .ok tail => .ok ((c :: rest).take numTeams :: tail)

/-- distributeTeamsCluster: captains, top players into empty teams,
then clusters of numTeams dealt alternately forward and reversed, then the
size validation with the cluster-specific message. -/
def distributeTeamsCluster (players : List Player) (numTeams ppt : Nat) :
    Except BalancerError (List (List Player)) :=
  let captains := players.filter (fun p => p.isCaptain)
  let nonCaptains := players.filter (fun p => !p.isCaptain)
  match assignCaptains captains numTeams with
  | .error e => .error e
  | .ok teams =>
    let sorted := sortByScoreDesc nonCaptains
    let st := fillEmptyTeams teams sorted numTeams
    match chunksGo numTeams (st.2.length + 1) st.2 with
    | .error e => .error e
    | .ok clusters =>
      let teams2 := clusters.enum.foldl (fun ts ic =>
        if ic.1 % 2 = 0 then
          ic.2.enum.foldl (fun us jp =>
            if jp.1 < numTeams then updateAt us jp.1 (fun t => t ++ [jp.2]) else us) ts
        else
          ic.2.enum.foldl (fun us jp =>
            if jp.1 < numTeams then updateAt us (numTeams - 1 - jp.1) (fun t => t ++ [jp.2]) else us) ts) st.1
      validateSizes teams2 ppt true

/-- The tier keys of playersByTier in first-occurrence order. -/
def tierKeys (players : List Player) : List String :=
  players.foldl (fun acc p => if acc.contains p.tier then acc else acc ++ [p.tier]) []

/-- Object.entries(playersByTier).sort(): the default JS sort compares the
stringified [tier, players] entries, so distinct tiers compare as the tier
label followed by a comma; the model sorts the keys by that order. -/
def sortTierKeys (keys : List String) : List String :=
  List.insertionSort (fun a b => a ++ "," ≤ b ++ ",") keys

/-- Deal a tier group across the teams at index i % numTeams. -/
def assignModulo (teams : List (List Player)) (numTeams : Nat)
    (ps : List Player) : List (List Player) :=
  ps.enum.foldl (fun ts ip => updateAt ts (ip.1 % numTeams) (fun t => t ++ [ip.2])) teams

/-- The rebalancing branch of the random strategy feeds the flattened
teams back into round robin; JS reads .isCaptain of every member there, so
an undefined member (modelled as none) raises a TypeError. -/
def distributeFromFlat (flat : List (Option Player)) (numTeams ppt : Nat) :
    Except BalancerError (List (List Player)) :=
  if flat.any (fun op => op.isNone) then .error .typeError
  else distributeTeamsRoundRobin (flat.filterMap id) numTeams ppt

/-- distributeTeamsRandom: captains, tier groups shuffled and dealt
round-robin by index, then each team reshuffled behind its first member.
For an empty team JS pushes team[0] = undefined, modelled as none: such a
team can never pass the size check (every real player is already placed,
so an undefined entry forces some team over size), hence stripping the
Option on the success path is exact. With numTeams = 0 and players to
place, teams[i % 0] dereferences undefined in JS, hence typeError. -/
def distributeTeamsRandom (shuffleFn : List Player → List Player)
    (players : List Player) (numTeams ppt : Nat) :
    Except BalancerError (List (List Player)) :=
  let captains := players.filter (fun p => p.isCaptain)
  let nonCaptains := players.filter (fun p => !p.isCaptain)
  match assignCaptains captains numTeams with
  | .error e => .error e
  | .ok teams =>
    if numTeams = 0 ∧ nonCaptains ≠ [] then .error .typeError
    else
      let teams1 := (sortTierKeys (tierKeys nonCaptains)).foldl (fun ts tier =>
        assignModulo ts numTeams (shuffleFn (tierGroup nonCaptains tier))) teams
      let teamsJS : List (List (Option Player)) := teams1.map (fun team =>
        match team with
        | [] => [none]
        | f :: rest => some f :: (shuffleFn rest).map some)
      if teamsJS.all (fun t => t.length = ppt) then
        .ok (teamsJS.map (fun t => t.filterMap id))
      else
        distributeFromFlat teamsJS.flatten numTeams ppt

/-- State of the optimizer between trials: adopted best partition, its
score, and the consecutive no-improvement counter. -/
structure OptState where
  bestTeams : List (List Player)
  bestScore : Q
  noImp : Nat
deriving DecidableEq, Repr

/-- Result of a scan over trial swaps: either the updated state, or the
partition returned early because its score reached exactly 0. -/
inductive SweepStep where
  | continued (s : OptState)
  | returned (teams : List (List Player))
deriving DecidableEq, Repr

/-- Read position (i, p) of a partition; out of range yields a throwaway
player (the loop bounds keep every access in range). -/
def getPlayerAt (t : List (List Player)) (i p : Nat) : Player :=
  (t.getD i []).getD p (mkPlayer "" "" false)

/-- Write position (i, p) of a partition. -/
def setPlayerAt (t : List (List Player)) (i p : Nat) (pl : Player) :
    List (List Player) :=
  updateAt t i (fun team => team.set p pl)

/-- The destructuring swap of positions (i, p1) and (j, p2): both old
values are read first, then written crosswise. -/
def swapPositions (t : List (List Player)) (i p1 j p2 : Nat) :
    List (List Player) :=
  let a := getPlayerAt t i p1
  let b := getPlayerAt t j p2
  setPlayerAt (setPlayerAt t i p1 b) j p2 a

/-- All single-swap loop indices (i, j, p1, p2) in source order; the loop
bounds come from the shape of the ORIGINAL teams argument, as in the JS. -/
def singleSwapDescs (shape : List Nat) : List (Nat × Nat × Nat × Nat) :=
  let n := shape.length
  (List.range n).flatMap (fun i =>
    ((List.range n).filter (fun j => i < j)).flatMap (fun j =>
      (List.range (shape.getD i 0)).flatMap (fun p1 =>
        (List.range (shape.getD j 0)).map (fun p2 => (i, j, p1, p2)))))

/-- All double-swap loop indices (i, j, p1, p2, p3, p4) in source order. -/
def doubleSwapDescs (shape : List Nat) :
    List (Nat × Nat × Nat × Nat × Nat × Nat) :=
  let n := shape.length
  (List.range n).flatMap (fun i =>
    ((List.range n).filter (fun j => i < j)).flatMap (fun j =>
      (List.range (shape.getD i 0)).flatMap (fun p1 =>
        ((List.range (shape.getD i 0)).filter (fun p2 => p1 < p2)).flatMap (fun p2 =>
          (List.range (shape.getD j 0)).flatMap (fun p3 =>
            ((List.range (shape.getD j 0)).filter (fun p4 => p3 < p4)).map (fun p4 =>
              (i, j, p1, p2, p3, p4)))))))

/-- Apply a single-swap trial to a partition. -/
def applySingle (t : List (List Player)) (d : Nat × Nat × Nat × Nat) :
    List (List Player) :=
  swapPositions t d.1 d.2.2.1 d.2.1 d.2.2.2

/-- Apply a double-swap trial: (i, p1) with (j, p3), then (i, p2) with
(j, p4), the two sequential destructuring swaps of the source. -/
def applyDouble (t : List (List Player))
    (d : Nat × Nat × Nat × Nat × Nat × Nat) : List (List Player) :=
  swapPositions (swapPositions t d.1 d.2.2.1 d.2.1 d.2.2.2.2.1)
    d.1 d.2.2.2.1 d.2.1 d.2.2.2.2.2

/-- Score one trial partition: adopt it when strictly better, return it
outright when its score is exactly 0, otherwise bump the no-improvement
counter. -/
def tryMove (s : OptState) (cand : List (List Player)) : SweepStep :=
  let newScore := (evaluateTeams cand).score
  if Q.blt newScore s.bestScore then
    if Q.isZero newScore then .returned cand
    else .continued ⟨cand, newScore, 0⟩
  else .continued ⟨s.bestTeams, s.bestScore, s.noImp + 1⟩

/-- Scan a list of trial descriptors; every trial is applied to a fresh
deep copy of the current best. -/
def runSweep {α : Type} (apply : List (List Player) → α → List (List Player)) :
    List α → OptState → SweepStep
  | [], s => .continued s
  | d :: rest, s =>
    match tryMove s (apply (cloneTeams s.bestTeams) d) with
    | .returned t => .returned t
    | .continued s1 => runSweep apply rest s1

/-- The outer optimizer loop. fuel counts the remaining iterations of the
for loop (1000 at the top), iter the running iteration index (for the
every-10th double-swap pass); the second component of the result counts
the outer iterations actually executed. -/
def optimizeGo (shape : List Nat) :
    Nat → Nat → OptState → List (List Player) × Nat
  | 0, _, s => (s.bestTeams, 0)
  | fuel + 1, iter, s =>
    if s.noImp ≥ 100 then (s.bestTeams, 0)
    else
      match runSweep applySingle (singleSwapDescs shape) s with
      | .returned t => (t, 1)
      | .continued s1 =>
        if iter % 10 = 0 then
          match runSweep applyDouble (doubleSwapDescs shape) s1 with
          | .returned t => (t, 1)
          | .continued s2 =>
            let r := optimizeGo shape fuel (iter + 1) s2
            (r.1, r.2 + 1)
        else
          let r := optimizeGo shape fuel (iter + 1) s1
          (r.1, r.2 + 1)

/-- optimizeTeams: deep-clone the input, return it at once when already
perfectly balanced, otherwise run up to 1000 outer iterations with the
100-trial no-improvement cutoff. -/
def optimizeTeams (teams : List (List Player)) : List (List Player) :=
  let bestTeams := cloneTeams teams
  let bestScore := (evaluateTeams bestTeams).score
  if Q.isZero bestScore then bestTeams
  else (optimizeGo (teams.map (fun t => t.length)) 1000 0 ⟨bestTeams, bestScore, 0⟩).1

/-- The number of outer iterations optimizeTeams executes, read off the
same recursion. -/
def optimizeTeamsIterCount (teams : List (List Player)) : Nat :=
  let bestTeams := cloneTeams teams
  let bestScore := (evaluateTeams bestTeams).score
  if Q.isZero bestScore then 0
  else (optimizeGo (teams.map (fun t => t.length)) 1000 0 ⟨bestTeams, bestScore, 0⟩).2

/-- The property names an object literal inherits from Object.prototype
(ES standard members plus the Annex B accessors present in browsers).
The JS strategies table is a plain object literal, so indexing it with
one of these names yields a truthy inherited value (a function, or the
prototype object itself for the proto accessor): the falsiness check
guarding the unknown-strategy throw is bypassed, and the subsequent
strategy.func call then raises a TypeError because func is undefined. -/
def OBJECT_PROTOTYPE_KEYS : List String :=
  ["constructor", "hasOwnProperty", "isPrototypeOf", "propertyIsEnumerable",
   "toLocaleString", "toString", "valueOf", "__defineGetter__",
   "__defineSetter__", "__lookupGetter__", "__lookupSetter__", "__proto__"]

/-- createTeamDistribution: look the strategy up, build the initial
partition, optimize unless pure snake, evaluate, and package. The lookup
strategies[strategyName] walks the prototype chain: a name that is
neither a strategy nor inherited from Object.prototype makes the
falsiness check throw the unknown-strategy error, while an inherited name
passes the check and fails with a TypeError only when strategy.func is
called. The shuffle oracle the random and snake strategies draw from is
the explicit shuffleFn parameter. -/
def createTeamDistribution (shuffleFn : List Player → List Player)
    (strategyName : String) (players : List Player) (numTeams ppt : Nat) :
    Except BalancerError TeamDistribution :=
  let entry : Option ((List Player → Nat → Nat →
      Except BalancerError (List (List Player))) × String × String) :=
    if strategyName = "round_robin" then
      some (distributeTeamsRoundRobin, "Round-Robin Distribution",
        "Distributes players in a snake draft pattern, ensuring top players are spread across teams.")
    else if strategyName = "random" then
      some (distributeTeamsRandom shuffleFn, "Tier-Based Random Distribution",
        "Distributes players randomly while maintaining tier balance across teams.")
    else if strategyName = "cluster" then
      some (distributeTeamsCluster, "Cluster-Based Distribution",
        "Groups similar-strength players together, then distributes groups to maximize diversity within teams.")
    else if strategyName = "snake" then
      some (distributeTeamsSnake shuffleFn, "Pure Snake Draft",
        "Simple snake draft pattern where teams pick players in alternating order without optimization.")
    else none
  match entry with
  | none =>
    if OBJECT_PROTOTYPE_KEYS.contains strategyName then .error .typeError
    else .error (.unknownStrategy strategyName)
  | some st =>
    match st.1 players numTeams ppt with
    | .error e => .error e
    | .ok initialTeams =>
      let optimizedTeams :=
        if strategyName = "snake" then initialTeams else optimizeTeams initialTeams
      let ev := evaluateTeams optimizedTeams
      .ok ⟨st.2.1, st.2.2, optimizedTeams, ev.strengthVariance,
        ev.strengthDiff, ev.tierImbalance, ev.score⟩

/-- A lowercased captain cell marks a captain when it is yes, true or 1. -/
def parseCaptainCell (s : String) : Bool :=
  s == "yes" || s == "true" || s == "1"

/-- Structural character-list splitter, the JS String.split on a single
separator character (the core String.splitOn is well-founded recursion,
which the proof kernel cannot evaluate, so the CSV model works on
character lists). -/
def splitChars (sep : Char) : List Char → List (List Char)
  | [] => [[]]
  | c :: rest =>
    let r := splitChars sep rest
    if c = sep then [] :: r
    else
      match r with
      | [] => [[c]]
      | f :: fs => (c :: f) :: fs

/-- Collapse CR LF to LF, so that splitting on LF afterwards matches the
JS split on the regular expression of an optional CR before an LF. -/
def stripCR : List Char → List Char
  | [] => []
  | [c] => [c]
  | c :: c2 :: rest =>
    if c = Char.ofNat 13 ∧ c2 = Char.ofNat 10 then Char.ofNat 10 :: stripCR rest
    else c :: stripCR (c2 :: rest)

/-- The whitespace characters the embedded CSV inputs can contain (space,
tab, CR, LF); JS trim strips further Unicode whitespace no input here
uses. -/
def isWS (c : Char) : Bool :=
  c = Char.ofNat 32 ∨ c = Char.ofNat 9 ∨ c = Char.ofNat 13 ∨ c = Char.ofNat 10

/-- JS String.prototype.trim over the characters. -/
def trimChars (l : List Char) : List Char :=
  ((l.dropWhile isWS).reverse.dropWhile isWS).reverse

/-- JS String.prototype.toLowerCase over the characters. -/
def lowerChars (l : List Char) : List Char := l.map Char.toLower

/-- JS String.prototype.toUpperCase over the characters. -/
def upperChars (l : List Char) : List Char := l.map Char.toUpper

/-- loadPlayersFromCSV: split into lines, look for a captain column in the
lowercased header, then fold over the data rows skipping blank lines,
short rows, duplicate names and unrecognized tiers. A custom weight table
replaces the default one for the tier validation only; the Player
constructor itself always reads DEFAULT_TIER_SCORES. -/
def loadPlayersFromCSV (csvContent : String)
    (customWeights : Option (List (String × Int))) : List Player :=
  let tierScores := customWeights.getD DEFAULT_TIER_SCORES
  let lines : List (List Char) := splitChars (Char.ofNat 10) (stripCR csvContent.data)
  let headers : List String :=
    (splitChars (Char.ofNat 44) (lowerChars (lines.headD []))).map
      (fun h => String.mk (trimChars h))
  let captainIdx := headers.findIdx? (fun h => h == "captain")
  let step := fun (st : List Player × List String) (rawLine : List Char) =>
    let line := trimChars rawLine
    if line.isEmpty then st
    else
      let columns : List (List Char) := (splitChars (Char.ofNat 44) line).map trimChars
      if columns.length < 2 then st
      else
        let name := String.mk (columns.headD [])
        let tier := String.mk (upperChars (columns.getD 1 []))
        let isCaptain :=
          match captainIdx with
          | some ci =>
            if ci < columns.length then
              parseCaptainCell (String.mk (lowerChars (columns.getD ci [])))
            else false
          | none => false
        if st.2.contains name then st
        else if (lookupTier tierScores tier).isNone then st
        else (st.1 ++ [mkPlayer name tier isCaptain], st.2 ++ [name])
  ((lines.drop 1).foldl step ([], [])).1

/-- Decidable equality of results, used to evaluate the concrete runs. -/
instance {ε α : Type} [DecidableEq ε] [DecidableEq α] : DecidableEq (Except ε α) :=
  fun x y =>
    match x, y with
    | .ok a, .ok b =>
      if h : a = b then isTrue (by rw [h]) else isFalse (fun hc => h (by cases hc; rfl))
    | .error a, .error b =>
      if h : a = b then isTrue (by rw [h]) else isFalse (fun hc => h (by cases hc; rfl))
    | .ok _, .error _ => isFalse (fun hc => by cases hc)
    | .error _, .ok _ => isFalse (fun hc => by cases hc)

/-- The tier-imbalance computation the claim describes: the same formula as
in evaluateTeams, but iterating over the 9 recognized tier labels of
DEFAULT_TIER_ORDER instead of the characters of the string the source
splits. Written from the words of the spec for comparison with the
source-derived definition. -/
def specTierImbalance (teams : List (List Player)) : Q :=
  DEFAULT_TIER_ORDER.foldl (fun acc tier =>
    let counts : List Nat := teams.map (fun t => tierCount t tier)
    if counts.any (fun c => c > 0) then
      let tierAvg : Q := Q.div (Q.ofNat counts.sum) (Q.ofNat counts.length)
      let tierVariance : Q := Q.sum (counts.map (fun c =>
        Q.mul (Q.sub (Q.ofNat c) tierAvg) (Q.sub (Q.ofNat c) tierAvg)))
      Q.add acc tierVariance
    else acc) (Q.ofInt 0)

/-- The snake-round team order the claim describes: reverse when the round
number is even. Written from the words of the spec for comparison with the
source-derived snakeTeamIndices. -/
def snakeTeamIndicesSpec (numTeams roundNum : Nat) : List Nat :=
  if roundNum % 2 = 0 then (List.range numTeams).map (fun i => numTeams - 1 - i)
  else List.range numTeams

/-- Does a result carry the unknown-strategy error? -/
def isUnknownStrategyError {α : Type} : Except BalancerError α → Bool
  | .error (.unknownStrategy _) => true
  | _ => false

/-- Does a result carry one of the four errors validatePlayerCount
raises? -/
def isValidationError {α : Type} : Except BalancerError α → Bool
  | .error (.invalidTeamCount _) => true
  | .error (.notEnoughPlayers _ _) => true
  | .error (.notDivisible _ _) => true
  | .error (.captainOverflow _ _) => true
  | _ => false

/-- The error kinds a distribution strategy itself can produce. -/
def isStrategyInternalError : BalancerError → Bool
  | .unevenTeam _ _ => true
  | .unevenTeamCluster _ _ => true
  | .typeError => true
  | .nonTermination => true
  | _ => false

/-- A result that is either a success or a strategy-internal error. -/
def internalErrorsOnly {α : Type} : Except BalancerError α → Bool
  | .error e => isStrategyInternalError e
  | .ok _ => true

/-- A valid roster on which the random strategy crashes: 3 players for 3
teams of 1, two of them captains. The lone non-captain lands on team 0
next to the first captain, team 2 stays empty and receives the undefined
team[0] during the reshuffle, and the rebalancing fallback then reads
.isCaptain of undefined. -/
def c1Roster : List Player :=
  [mkPlayer "c0" "S" true, mkPlayer "c1" "S" true, mkPlayer "p" "S" false]

/-- Two one-player teams whose tiers S/A and B tell the character-based
and label-based tier-imbalance computations apart. -/
def c2Teams : List (List Player) :=
  [[mkPlayer "a" "S/A" false], [mkPlayer "b" "B" false]]

/-- A two-team partition already perfectly balanced, used to exercise the
immediate-return branch of the optimizer. -/
def c3Teams : List (List Player) :=
  [[mkPlayer "x" "S" false], [mkPlayer "y" "S" false]]

/-- Six captain-less players with one of each of six distinct tiers, so
the snake draft queue is deterministic whatever the shuffle does. -/
def c7Roster : List Player :=
  [mkPlayer "p1" "S+" false, mkPlayer "p2" "S" false, mkPlayer "p3" "S/A" false,
   mkPlayer "p4" "A" false, mkPlayer "p5" "A/B" false, mkPlayer "p6" "B" false]

/-- The roster of the C8 scenario: six captain-less players with tiers
S, S, A, A, B, B (scores 10, 10, 8, 8, 5, 5). -/
def c8Roster : List Player :=
  [mkPlayer "s1" "S" false, mkPlayer "s2" "S" false, mkPlayer "a1" "A" false,
   mkPlayer "a2" "A" false, mkPlayer "b1" "B" false, mkPlayer "b2" "B" false]

/-- Three captain-less players, an infeasible roster for 2 teams. -/
def c10Roster : List Player :=
  [mkPlayer "x" "S" false, mkPlayer "y" "A" false, mkPlayer "z" "B" false]

/-- A strategy-internal-errors-only result never carries the
unknown-strategy error. -/
theorem internal_not_unknown {α : Type} {r : Except BalancerError α}
    (h : internalErrorsOnly r = true) : isUnknownStrategyError r = false := by
  cases r with
  | ok a => rfl
  | error e =>
    cases e <;> simp_all [internalErrorsOnly, isStrategyInternalError, isUnknownStrategyError]

/-- A strategy-internal-errors-only result never carries a validation
error. -/
theorem internal_not_validation {α : Type} {r : Except BalancerError α}
    (h : internalErrorsOnly r = true) : isValidationError r = false := by
  cases r with
  | ok a => rfl
  | error e =>
    cases e <;> simp_all [internalErrorsOnly, isStrategyInternalError, isValidationError]

/-- assignCaptains only fails with the internal TypeError. -/
theorem assignCaptains_internal (captains : List Player) (numTeams : Nat) :
    internalErrorsOnly (assignCaptains captains numTeams) = true := by
  unfold assignCaptains; split <;> rfl

/-- validateSizes only fails with the internal uneven-team errors. -/
theorem validateSizes_internal (teams : List (List Player)) (ppt : Nat) (cluster : Bool) :
    internalErrorsOnly (validateSizes teams ppt cluster) = true := by
  unfold validateSizes
  split
  · cases cluster <;> rfl
  · rfl

/-- The round-robin dealing loop only fails with nonTermination. -/
theorem rrRounds_internal (numTeams ppt : Nat) :
    ∀ (fuel roundNum : Nat) (teams : List (List Player)) (queue : List Player),
      internalErrorsOnly (rrRounds numTeams ppt fuel roundNum teams queue) = true := by
  intro fuel
  induction fuel with
  | zero => intro roundNum teams queue; cases queue <;> rfl
  | succ n ih =>
    intro roundNum teams queue
    cases queue with
    | nil => rfl
    | cons p rest =>
      rw [rrRounds]
      split
      · exact ih _ _ _
      · rfl

/-- The snake dealing loop only fails with nonTermination. -/
theorem snakeRounds_internal (numTeams ppt : Nat) :
    ∀ (fuel roundNum : Nat) (teams : List (List Player)) (queue : List Player),
      internalErrorsOnly (snakeRounds numTeams ppt fuel roundNum teams queue) = true := by
  intro fuel
  induction fuel with
  | zero => intro roundNum teams queue; cases queue <;> rfl
  | succ n ih =>
    intro roundNum teams queue
    cases queue with
    | nil => rfl
    | cons p rest =>
      rw [snakeRounds]
      exact ih _ _ _

/-- The cluster chopper only fails with nonTermination. -/
theorem chunksGo_internal (numTeams : Nat) :
    ∀ (fuel : Nat) (l : List Player),
      internalErrorsOnly (chunksGo numTeams fuel l) = true := by
  intro fuel
  induction fuel with
  | zero => intro l; cases l <;> rfl
  | succ n ih =>
    intro l
    cases l with
    | nil => rfl
    | cons c rest =>
      rw [chunksGo]
      have h := ih ((c :: rest).drop numTeams)
      cases hc : chunksGo numTeams n ((c :: rest).drop numTeams) with
      | error e => rw [hc] at h; simpa using h
      | ok tail => rfl

/-- Transport an errors-only fact along an equation with an error; the
error may be re-raised at a different result type. -/
theorem internal_error_case {α β : Type} {x : Except BalancerError α} {e : BalancerError}
    (heq : x = .error e) (hx : internalErrorsOnly x = true) :
    internalErrorsOnly (Except.error e : Except BalancerError β) = true := by
  subst heq
  cases e <;> simp_all [internalErrorsOnly, isStrategyInternalError]

/-- The round-robin strategy only fails with internal errors. -/
theorem distributeTeamsRoundRobin_internal (players : List Player) (numTeams ppt : Nat) :
    internalErrorsOnly (distributeTeamsRoundRobin players numTeams ppt) = true := by
  unfold distributeTeamsRoundRobin
  dsimp only
  split
  next e heq => exact internal_error_case heq (assignCaptains_internal _ _)
  next teams heq =>
    split
    next e2 heq2 => exact internal_error_case heq2 (rrRounds_internal _ _ _ _ _ _)
    next t2 heq2 => exact validateSizes_internal t2 ppt false

/-- The pure-snake strategy only fails with internal errors. -/
theorem distributeTeamsSnake_internal (shuffleFn : List Player → List Player)
    (players : List Player) (numTeams ppt : Nat) :
    internalErrorsOnly (distributeTeamsSnake shuffleFn players numTeams ppt) = true := by
  unfold distributeTeamsSnake
  dsimp only
  split
  next e heq => exact internal_error_case heq (assignCaptains_internal _ _)
  next teams heq =>
    split
    next e2 heq2 => exact internal_error_case heq2 (snakeRounds_internal _ _ _ _ _ _)
    next t2 heq2 => exact validateSizes_internal t2 ppt false

/-- The cluster strategy only fails with internal errors. -/
theorem distributeTeamsCluster_internal (players : List Player) (numTeams ppt : Nat) :
    internalErrorsOnly (distributeTeamsCluster players numTeams ppt) = true := by
  unfold distributeTeamsCluster
  dsimp only
  split
  next e heq => exact internal_error_case heq (assignCaptains_internal _ _)
  next teams heq =>
    split
    next e2 heq2 => exact internal_error_case heq2 (chunksGo_internal _ _ _)
    next cl heq2 => exact validateSizes_internal _ ppt true

/-- The rebalancing fallback only fails with internal errors. -/
theorem distributeFromFlat_internal (flat : List (Option Player)) (numTeams ppt : Nat) :
    internalErrorsOnly (distributeFromFlat flat numTeams ppt) = true := by
  unfold distributeFromFlat
  split
  · rfl
  · exact distributeTeamsRoundRobin_internal _ _ _

/-- The random strategy only fails with internal errors. -/
theorem distributeTeamsRandom_internal (shuffleFn : List Player → List Player)
    (players : List Player) (numTeams ppt : Nat) :
    internalErrorsOnly (distributeTeamsRandom shuffleFn players numTeams ppt) = true := by
  unfold distributeTeamsRandom
  dsimp only
  split
  next e heq => exact internal_error_case heq (assignCaptains_internal _ _)
  next teams heq =>
    split
    · rfl
    · split
      · rfl
      · exact distributeFromFlat_internal _ _ _

/-- createTeamDistribution on a recognized strategy name only fails with
internal errors. -/
theorem createTeamDistribution_internal (shuffleFn : List Player → List Player)
    (strategyName : String) (players : List Player) (numTeams ppt : Nat)
    (h : strategyName = "round_robin" ∨ strategyName = "random" ∨
      strategyName = "cluster" ∨ strategyName = "snake") :
    internalErrorsOnly (createTeamDistribution shuffleFn strategyName players numTeams ppt) = true := by
  rcases h with h | h | h | h <;> subst h
  · unfold createTeamDistribution
    dsimp only
    rw [if_pos rfl]
    dsimp only
    split
    next e heq2 =>
      refine internal_error_case heq2 ?_
      exact distributeTeamsRoundRobin_internal _ _ _
    next t heq2 => rfl
  · unfold createTeamDistribution
    dsimp only
    rw [if_neg (by decide), if_pos rfl]
    dsimp only
    split
    next e heq2 =>
      refine internal_error_case heq2 ?_
      exact distributeTeamsRandom_internal _ _ _ _
    next t heq2 => rfl
  · unfold createTeamDistribution
    dsimp only
    rw [if_neg (by decide), if_neg (by decide), if_pos rfl]
    dsimp only
    split
    next e heq2 =>
      refine internal_error_case heq2 ?_
      exact distributeTeamsCluster_internal _ _ _
    next t heq2 => rfl
  · unfold createTeamDistribution
    dsimp only
    rw [if_neg (by decide), if_neg (by decide), if_neg (by decide), if_pos rfl]
    dsimp only
    split
    next e heq2 =>
      refine internal_error_case heq2 ?_
      exact distributeTeamsSnake_internal _ _ _ _
    next t heq2 => rfl

/-- Claim C4 counterexample: the claim says the unknown-strategy error is
raised exactly when the name is not one of the four strategies, but the
name constructor is not a strategy and still does not raise it — the JS
lookup strategies[strategyName] finds the truthy Object.prototype member,
the falsiness check is bypassed, and the later strategy.func call raises
a TypeError instead. -/
theorem claim_C4_counterexample :
    createTeamDistribution (fun l => l) "constructor" [] 2 1 = .error .typeError ∧
    isUnknownStrategyError (createTeamDistribution (fun l => l) "constructor" [] 2 1) = false ∧
    (["round_robin", "random", "cluster", "snake"].contains "constructor") = false :=
  ⟨by decide, by decide, by decide⟩

/-- Claim C4 as amended: validatePlayerCount fails exactly when
numTeams < 2, or the roster is smaller than numTeams, or its size is not
divisible by numTeams, or there are more captains than teams, and
otherwise returns rosterSize / numTeams; and createTeamDistribution
yields the unknown-strategy error exactly when the name is neither one of
round_robin, random, cluster, snake NOR a property name inherited from
Object.prototype — for an inherited name (constructor, toString, ...) the
truthy lookup bypasses the check and the strategy.func call raises a
TypeError instead, shown by the third conjunct. -/
theorem claim_C4_amended :
    (∀ (players : List Player) (numTeams : Nat),
      ((∃ e, validatePlayerCount players numTeams = .error e) ↔
        (numTeams < 2 ∨ players.length < numTeams ∨ players.length % numTeams ≠ 0 ∨
          countCaptains players > numTeams)) ∧
      (validatePlayerCount players numTeams = .ok (players.length / numTeams) ↔
        ¬(numTeams < 2 ∨ players.length < numTeams ∨ players.length % numTeams ≠ 0 ∨
          countCaptains players > numTeams))) ∧
    (∀ (shuffleFn : List Player → List Player) (strategyName : String)
        (players : List Player) (numTeams ppt : Nat),
      isUnknownStrategyError
          (createTeamDistribution shuffleFn strategyName players numTeams ppt) =
        (!(["round_robin", "random", "cluster", "snake"].contains strategyName) &&
          !(OBJECT_PROTOTYPE_KEYS.contains strategyName))) ∧
    (∀ (shuffleFn : List Player → List Player) (strategyName : String)
        (players : List Player) (numTeams ppt : Nat),
      OBJECT_PROTOTYPE_KEYS.contains strategyName = true →
      createTeamDistribution shuffleFn strategyName players numTeams ppt =
        .error .typeError) := by
  refine ⟨?_, ?_, ?_⟩
  · intro players numTeams
    unfold validatePlayerCount
    dsimp only
    split_ifs with h1 h2 h3 h4 <;>
      constructor <;> simp_all
  · intro shuffleFn strategyName players numTeams ppt
    by_cases h : strategyName = "round_robin" ∨ strategyName = "random" ∨
      strategyName = "cluster" ∨ strategyName = "snake"
    · rw [internal_not_unknown (createTeamDistribution_internal _ _ _ _ _ h)]
      rcases h with h | h | h | h <;> subst h <;> rfl
    · push_neg at h
      have hc : (["round_robin", "random", "cluster", "snake"].contains strategyName) = false := by
        simp [List.contains, h.1, h.2.1, h.2.2.1, h.2.2.2]
      unfold createTeamDistribution
      dsimp only
      rw [if_neg h.1, if_neg h.2.1, if_neg h.2.2.1, if_neg h.2.2.2]
      dsimp only
      by_cases hp : OBJECT_PROTOTYPE_KEYS.contains strategyName = true
      · rw [if_pos hp, hc, hp]
        rfl
      · have hp2 : OBJECT_PROTOTYPE_KEYS.contains strategyName = false :=
          Bool.eq_false_iff.mpr hp
        rw [if_neg hp, hc, hp2]
        rfl
  · intro shuffleFn strategyName players numTeams ppt hp
    have hmem : strategyName ∈ OBJECT_PROTOTYPE_KEYS := by
      simpa using hp
    simp only [OBJECT_PROTOTYPE_KEYS, List.mem_cons, List.not_mem_nil, or_false] at hmem
    rcases hmem with rfl | rfl | rfl | rfl | rfl | rfl | rfl | rfl | rfl | rfl | rfl | rfl <;>
      rfl

/-- Claim C10: createTeamDistribution performs no roster validation of its
own. On the 3-player roster with numTeams = 2 (size not divisible),
validatePlayerCount raises the divisibility error, while calling
createTeamDistribution directly (with playersPerTeam = 2) raises the
strategies' internal consistency error instead; and for every input
whatsoever createTeamDistribution never raises any of the four validation
errors. -/
theorem claim_C10_no_internal_validation :
    validatePlayerCount c10Roster 2 = .error (.notDivisible 3 2) ∧
    createTeamDistribution (fun l => l) "round_robin" c10Roster 2 2 =
      .error (.unevenTeam 1 2) ∧
    (∀ (shuffleFn : List Player → List Player) (strategyName : String)
        (players : List Player) (numTeams ppt : Nat),
      isValidationError
        (createTeamDistribution shuffleFn strategyName players numTeams ppt) = false) := by
  refine ⟨by decide, by decide, ?_⟩
  intro shuffleFn strategyName players numTeams ppt
  by_cases h : strategyName = "round_robin" ∨ strategyName = "random" ∨
    strategyName = "cluster" ∨ strategyName = "snake"
  · exact internal_not_validation (createTeamDistribution_internal _ _ _ _ _ h)
  · push_neg at h
    unfold createTeamDistribution
    dsimp only
    rw [if_neg h.1, if_neg h.2.1, if_neg h.2.2.1, if_neg h.2.2.2]
    dsimp only
    split <;> rfl

/-- Claim C1 (code_bug evidence): on the valid roster c1Roster (3 players
for 3 teams, 2 captains ≤ 3 teams, 3 divisible by 3 — validatePlayerCount
accepts it and returns 1 player per team), the random strategy raises a
TypeError instead of returning a Distribution: team 2 is left empty, the
reshuffle step pushes the undefined team[0] into it, and the rebalancing
fallback then reads .isCaptain of undefined. Every list the shuffle
touches on this input has at most one element, so the result is the same
for every shuffle outcome; the identity instantiates the shuffle oracle. -/
theorem claim_C1_random_crashes_on_valid_input :
    validatePlayerCount c1Roster 3 = .ok 1 ∧
    createTeamDistribution (fun l => l) "random" c1Roster 3 1 = .error .typeError :=
  ⟨by decide, by decide⟩

/-- Claim C2 (code_bug evidence): evaluateTeams does not iterate over the
9 recognized tier labels. On two one-player teams with tiers S/A and B the
source computes tierImbalance 1/2 (only the single character B is seen),
while the computation the claim describes over the 9 labels
(specTierImbalance) yields 1: the S/A player is invisible to the source
because the string S+SABCDEF is split into single characters. -/
theorem claim_C2_tier_imbalance_ignores_multichar_tiers :
    (evaluateTeams c2Teams).tierImbalance.toRat = 1 / 2 ∧
    (specTierImbalance c2Teams).toRat = 1 ∧
    (evaluateTeams c2Teams).tierImbalance.toRat ≠ (specTierImbalance c2Teams).toRat := by
  have h1 : (evaluateTeams c2Teams).tierImbalance = ⟨8, 16⟩ := by decide
  have h2 : specTierImbalance c2Teams = ⟨256, 256⟩ := by decide
  refine ⟨?_, ?_, ?_⟩
  · rw [h1]; norm_num [Q.toRat]
  · rw [h2]; norm_num [Q.toRat]
  · rw [h1, h2]; norm_num [Q.toRat]

/-- Claim C6 (code_bug evidence): with a custom tier table mapping S to
99, the roster-ingestion path still produces a player whose score is the
DEFAULT_TIER_SCORES lookup 10, not the custom lookup 99 — the Player
constructor ignores the configured table, which is consulted for row
validation only. -/
theorem claim_C6_custom_table_ignored_for_scores :
    loadPlayersFromCSV "Name,Tier\nAlice,S" (some [("S", 99)]) =
      [{ name := "Alice", tier := "S", score := 10, isCaptain := false }] ∧
    lookupTier [("S", 99)] "S" = some 99 ∧
    (10 : Int) ≠ 99 :=
  ⟨by decide, by decide, by decide⟩

/-- Claim C7 counterexample: the claim says the reverse team order is
applied when the round number is even, but the source applies the reverse
order on odd rounds: at round 2 with 3 teams the source deals forward
[0, 1, 2] while the claimed rule (snakeTeamIndicesSpec) deals [2, 1, 0],
and on the deterministic 6-player roster c7Roster the even round 2
demonstrably deals forward (p5 to team 0, then p6 to team 1). -/
theorem claim_C7_counterexample :
    snakeTeamIndices 3 2 = [0, 1, 2] ∧
    snakeTeamIndicesSpec 3 2 = [2, 1, 0] ∧
    snakeTeamIndices 3 2 ≠ snakeTeamIndicesSpec 3 2 ∧
    distributeTeamsSnake (fun l => l) c7Roster 2 3 =
      .ok [[mkPlayer "p1" "S+" false, mkPlayer "p4" "A" false, mkPlayer "p5" "A/B" false],
           [mkPlayer "p2" "S" false, mkPlayer "p3" "S/A" false, mkPlayer "p6" "B" false]] :=
  ⟨by decide, by decide, by decide, by decide⟩

/-- Claim C7 as amended: captain-less teams are filled in team-index order
from the front of the draft queue, the round counter starts at 1 and flips
on parity, the first post-fill round (round 1) deals in reverse team
order, and the reverse order is applied when the round number is ODD
(forward when even). The concrete run shows the fill order (p1 to team 0,
p2 to team 1), the reversed round 1 (p3 to team 1, p4 to team 0) and the
forward round 2 (p5 to team 0, p6 to team 1). -/
theorem claim_C7_amended :
    (∀ numTeams roundNum, snakeTeamIndices numTeams roundNum =
      if roundNum % 2 = 1 then (List.range numTeams).map (fun i => numTeams - 1 - i)
      else List.range numTeams) ∧
    distributeTeamsSnake (fun l => l) c7Roster 2 3 =
      .ok [[mkPlayer "p1" "S+" false, mkPlayer "p4" "A" false, mkPlayer "p5" "A/B" false],
           [mkPlayer "p2" "S" false, mkPlayer "p3" "S/A" false, mkPlayer "p6" "B" false]] := by
  refine ⟨fun numTeams roundNum => ?_, by decide⟩
  unfold snakeTeamIndices
  rcases Nat.mod_two_eq_zero_or_one roundNum with h | h <;> simp [h]

/-- Claim C8 counterexample: on the stated input (6 players of tiers
S, S, A, A, B, B and numTeams = 3, i.e. 3 teams of 2) the optimized
partition does NOT reach strengthDiff 0: the total strength 46 cannot be
split into 3 equal pair sums, and the full pipeline run settles at
strengthDiff exactly 1. -/
theorem claim_C8_counterexample :
    ((createTeamDistribution (fun l => l) "round_robin" c8Roster 3 2).toOption.map
      (fun d => d.strengthDiff)) = some (Q.ofInt 1) ∧
    (Q.ofInt 1).toRat ≠ 0 :=
  ⟨by decide, by norm_num [Q.toRat, Q.ofInt]⟩

/-- Claim C8 as amended: with numTeams = 2 (teams of 3, one player of each
tier per team, as the parenthetical of the spec scenario describes) the
optimized partition reaches strengthDiff = 0 with both teams summing to
exactly 23. -/
theorem claim_C8_amended :
    ((createTeamDistribution (fun l => l) "round_robin" c8Roster 2 3).toOption.map
      (fun d => (d.strengthDiff, d.teams.map teamStrength))) =
      some (Q.ofInt 0, [23, 23]) ∧
    (Q.ofInt 0).toRat = 0 :=
  ⟨by decide, by norm_num [Q.toRat, Q.ofInt]⟩

/-- updateAt keeps the number of teams. -/
theorem updateAt_length (l : List (List Player)) (i : Nat) (f : List Player → List Player) :
    (updateAt l i f).length = l.length := by
  induction l generalizing i with
  | nil => rfl
  | cons t ts ih =>
    cases i with
    | zero => rfl
    | succ n => simpa [updateAt] using ih n

/-- setPlayerAt keeps the number of teams. -/
theorem setPlayerAt_length (t : List (List Player)) (i p : Nat) (pl : Player) :
    (setPlayerAt t i p pl).length = t.length := updateAt_length t i _

/-- swapPositions keeps the number of teams. -/
theorem swapPositions_length (t : List (List Player)) (i p1 j p2 : Nat) :
    (swapPositions t i p1 j p2).length = t.length := by
  unfold swapPositions
  rw [setPlayerAt_length, setPlayerAt_length]

/-- applySingle keeps the number of teams. -/
theorem applySingle_length (t : List (List Player)) (d : Nat × Nat × Nat × Nat) :
    (applySingle t d).length = t.length := swapPositions_length ..

/-- applyDouble keeps the number of teams. -/
theorem applyDouble_length (t : List (List Player)) (d : Nat × Nat × Nat × Nat × Nat × Nat) :
    (applyDouble t d).length = t.length := by
  unfold applyDouble
  rw [swapPositions_length, swapPositions_length]

/-- cloneTeams keeps the number of teams. -/
theorem cloneTeams_length (t : List (List Player)) : (cloneTeams t).length = t.length :=
  List.length_map t _

/-- On a partition of clone-fixed players the deep copy is the identity. -/
theorem cloneTeams_eq_self {teams : List (List Player)}
    (h : ∀ team ∈ teams, ∀ p ∈ team, p.clone = p) : cloneTeams teams = teams := by
  unfold cloneTeams
  have inner : ∀ team ∈ teams, team.map Player.clone = team := by
    intro team hteam
    have h2 : team.map Player.clone = team.map id :=
      List.map_congr_left (fun p hp => h team hteam p hp)
    simpa using h2
  have h3 : teams.map (fun team => team.map Player.clone) = teams.map id :=
    List.map_congr_left (fun team hteam => by simpa using inner team hteam)
  simpa using h3

/-- Denominator positivity for the fraction operations. -/
theorem Q.add_den_pos {a b : Q} (ha : 0 < a.den) (hb : 0 < b.den) : 0 < (Q.add a b).den :=
  mul_pos ha hb

theorem Q.sub_den_pos {a b : Q} (ha : 0 < a.den) (hb : 0 < b.den) : 0 < (Q.sub a b).den :=
  mul_pos ha hb

theorem Q.mul_den_pos {a b : Q} (ha : 0 < a.den) (hb : 0 < b.den) : 0 < (Q.mul a b).den :=
  mul_pos ha hb

theorem Q.div_den_pos {a b : Q} (ha : 0 < a.den) (hb : 0 < b.num) : 0 < (Q.div a b).den :=
  mul_pos ha hb

theorem Q.ofInt_den_pos (n : Int) : 0 < (Q.ofInt n).den := one_pos

theorem Q.ofNat_den_pos (n : Nat) : 0 < (Q.ofNat n).den := one_pos

/-- Denominator positivity through the JS reduce over fractions. -/
theorem Q.foldl_add_den_pos {l : List Q} {init : Q} (hinit : 0 < init.den)
    (h : ∀ q ∈ l, 0 < q.den) : 0 < (l.foldl Q.add init).den := by
  induction l generalizing init with
  | nil => simpa using hinit
  | cons q rest ih =>
    simp only [List.foldl_cons]
    exact ih (Q.add_den_pos hinit (h q (List.mem_cons_self q rest)))
      (fun r hr => h r (List.mem_cons_of_mem q hr))

theorem Q.sum_den_pos {l : List Q} (h : ∀ q ∈ l, 0 < q.den) : 0 < (Q.sum l).den :=
  Q.foldl_add_den_pos one_pos h

/-- The score evaluateTeams computes has a positive denominator whenever
there is at least one team (every division is by the team count). -/
theorem evaluateTeams_score_den_pos (teams : List (List Player)) (h : teams ≠ []) :
    0 < ((evaluateTeams teams).score).den := by
  have hn : (0 : Int) < ((teams.map teamStrength).length : Int) := by
    have := List.length_pos.mpr h
    simp only [List.length_map]
    exact_mod_cast this
  have hnQ : 0 < (Q.ofNat (teams.map teamStrength).length).num := by
    simpa [Q.ofNat] using hn
  unfold evaluateTeams
  dsimp only
  apply Q.add_den_pos
  apply Q.add_den_pos
  · -- strengthVariance * 2
    apply Q.mul_den_pos _ (Q.ofInt_den_pos 2)
    apply Q.div_den_pos _ hnQ
    apply Q.sum_den_pos
    intro q hq
    simp only [List.mem_map] at hq
    obtain ⟨s, _, rfl⟩ := hq
    exact Q.mul_den_pos
      (Q.sub_den_pos (Q.ofInt_den_pos s) (Q.div_den_pos (Q.ofInt_den_pos _) hnQ))
      (Q.sub_den_pos (Q.ofInt_den_pos s) (Q.div_den_pos (Q.ofInt_den_pos _) hnQ))
  · -- tierImbalance fold
    have hstep : ∀ (acc : Q) (tier : String), 0 < acc.den →
        0 < ((fun acc tier =>
          let counts : List Nat := teams.map (fun t => tierCount t tier)
          if counts.any (fun c => c > 0) then
            let tierAvg : Q := Q.div (Q.ofNat counts.sum) (Q.ofNat counts.length)
            let tierVariance : Q := Q.sum (counts.map (fun c =>
              Q.mul (Q.sub (Q.ofNat c) tierAvg) (Q.sub (Q.ofNat c) tierAvg)))
            Q.add acc tierVariance
          else acc) acc tier).den := by
      intro acc tier hacc
      dsimp only
      split
      · apply Q.add_den_pos hacc
        apply Q.sum_den_pos
        intro q hq
        simp only [List.mem_map] at hq
        obtain ⟨c, _, rfl⟩ := hq
        have hcl : 0 < (Q.ofNat (teams.map (fun t => tierCount t tier)).length).num := by
          have := List.length_pos.mpr h
          simp only [Q.ofNat, List.length_map]
          exact_mod_cast this
        exact Q.mul_den_pos
          (Q.sub_den_pos (Q.ofNat_den_pos c) (Q.div_den_pos (Q.ofNat_den_pos _) hcl))
          (Q.sub_den_pos (Q.ofNat_den_pos c) (Q.div_den_pos (Q.ofNat_den_pos _) hcl))
      · exact hacc
    have hfold : ∀ (chars : List String) (init : Q), 0 < init.den →
        0 < (chars.foldl (fun acc tier =>
          let counts : List Nat := teams.map (fun t => tierCount t tier)
          if counts.any (fun c => c > 0) then
            let tierAvg : Q := Q.div (Q.ofNat counts.sum) (Q.ofNat counts.length)
            let tierVariance : Q := Q.sum (counts.map (fun c =>
              Q.mul (Q.sub (Q.ofNat c) tierAvg) (Q.sub (Q.ofNat c) tierAvg)))
            Q.add acc tierVariance
          else acc) init).den := by
      intro chars
      induction chars with
      | nil => intro init hinit; simpa using hinit
      | cons tier rest ih =>
        intro init hinit
        simp only [List.foldl_cons]
        exact ih _ (hstep init tier hinit)
    exact hfold EVAL_TIER_CHARS (Q.ofInt 0) one_pos
  · exact Q.mul_den_pos (Q.ofInt_den_pos _) (Q.ofInt_den_pos 10)

/-- The cross-multiplication comparison agrees with the rational order on
positive denominators. -/
theorem Q.blt_iff {a b : Q} (ha : 0 < a.den) (hb : 0 < b.den) :
    (Q.blt a b = true) ↔ a.toRat < b.toRat := by
  unfold Q.blt Q.toRat
  rw [decide_eq_true_eq,
    div_lt_div_iff₀ (by exact_mod_cast ha : (0 : Rat) < a.den)
      (by exact_mod_cast hb : (0 : Rat) < b.den)]
  exact_mod_cast Iff.rfl

/-- The numerator test agrees with rational zeroness on nonzero
denominators. -/
theorem Q.isZero_iff {a : Q} (ha : 0 < a.den) : (Q.isZero a = true) ↔ a.toRat = 0 := by
  unfold Q.isZero Q.toRat
  rw [decide_eq_true_eq, div_eq_zero_iff]
  constructor
  · intro hz; left; exact_mod_cast hz
  · rintro (hz | hz)
    · exact_mod_cast hz
    · exact absurd hz (by exact_mod_cast ha.ne')

/-- One trial preserves the optimizer invariant: the stored score is the
evaluation of the stored best, and never exceeds the bound B; an early
return carries a partition whose score also respects the bound. -/
theorem tryMove_spec (n0 : Nat) (hn0 : 0 < n0) (B : Rat) (s : OptState)
    (cand : List (List Player))
    (hlen : s.bestTeams.length = n0)
    (hscore : (evaluateTeams s.bestTeams).score = s.bestScore)
    (hle : s.bestScore.toRat ≤ B)
    (hclen : cand.length = n0) :
    (∀ s1, tryMove s cand = .continued s1 →
      s1.bestTeams.length = n0 ∧ (evaluateTeams s1.bestTeams).score = s1.bestScore ∧
        s1.bestScore.toRat ≤ B) ∧
    (∀ t, tryMove s cand = .returned t →
      t.length = n0 ∧ ((evaluateTeams t).score).toRat ≤ B) := by
  have hbestne : s.bestTeams ≠ [] := by
    apply List.ne_nil_of_length_pos
    rw [hlen]; exact hn0
  have hcandne : cand ≠ [] := by
    apply List.ne_nil_of_length_pos
    rw [hclen]; exact hn0
  have hbden : 0 < s.bestScore.den := hscore ▸ evaluateTeams_score_den_pos _ hbestne
  have hcden : 0 < ((evaluateTeams cand).score).den := evaluateTeams_score_den_pos _ hcandne
  unfold tryMove
  dsimp only
  split
  next hblt =>
    have hlt : ((evaluateTeams cand).score).toRat < s.bestScore.toRat :=
      (Q.blt_iff hcden hbden).mp hblt
    split
    next hzero =>
      refine ⟨fun s1 hcon => by simp at hcon, fun t hret => ?_⟩
      have ht : t = cand := by injection hret with h; exact h.symm
      subst ht
      exact ⟨hclen, le_of_lt (lt_of_lt_of_le hlt hle)⟩
    next hzero =>
      refine ⟨fun s1 hcon => ?_, fun t hret => by simp at hret⟩
      have hs1 : s1 = ⟨cand, (evaluateTeams cand).score, 0⟩ := by
        injection hcon with h; exact h.symm
      subst hs1
      exact ⟨hclen, rfl, le_of_lt (lt_of_lt_of_le hlt hle)⟩
  next hblt =>
    refine ⟨fun s1 hcon => ?_, fun t hret => by simp at hret⟩
    have hs1 : s1 = ⟨s.bestTeams, s.bestScore, s.noImp + 1⟩ := by
      injection hcon with h; exact h.symm
    subst hs1
    exact ⟨hlen, hscore, hle⟩

/-- A sweep of trials preserves the optimizer invariant. -/
theorem runSweep_spec {α : Type} (n0 : Nat) (hn0 : 0 < n0) (B : Rat)
    (apply : List (List Player) → α → List (List Player))
    (happly : ∀ t d, t.length = n0 → (apply t d).length = n0) :
    ∀ (descs : List α) (s : OptState),
      s.bestTeams.length = n0 → (evaluateTeams s.bestTeams).score = s.bestScore →
      s.bestScore.toRat ≤ B →
      (∀ s1, runSweep apply descs s = .continued s1 →
        s1.bestTeams.length = n0 ∧ (evaluateTeams s1.bestTeams).score = s1.bestScore ∧
          s1.bestScore.toRat ≤ B) ∧
      (∀ t, runSweep apply descs s = .returned t →
        t.length = n0 ∧ ((evaluateTeams t).score).toRat ≤ B) := by
  intro descs
  induction descs with
  | nil =>
    intro s hlen hscore hle
    refine ⟨fun s1 hcon => ?_, fun t hret => by simp [runSweep] at hret⟩
    have hs1 : s1 = s := by
      simp only [runSweep] at hcon
      injection hcon with h; exact h.symm
    subst hs1
    exact ⟨hlen, hscore, hle⟩
  | cons d rest ih =>
    intro s hlen hscore hle
    have hclen : (apply (cloneTeams s.bestTeams) d).length = n0 :=
      happly _ d ((cloneTeams_length s.bestTeams).trans hlen)
    have htm := tryMove_spec n0 hn0 B s (apply (cloneTeams s.bestTeams) d)
      hlen hscore hle hclen
    cases htmres : tryMove s (apply (cloneTeams s.bestTeams) d) with
    | returned t0 =>
      refine ⟨fun s1 hcon => ?_, fun t hret => ?_⟩
      · rw [runSweep, htmres] at hcon
        simp at hcon
      · rw [runSweep, htmres] at hret
        have ht : t0 = t := by injection hret
        subst ht
        exact htm.2 t0 htmres
    | continued s0 =>
      have hs0 := htm.1 s0 htmres
      have hrest := ih s0 hs0.1 hs0.2.1 hs0.2.2
      refine ⟨fun s1 hcon => ?_, fun t hret => ?_⟩
      · rw [runSweep, htmres] at hcon
        exact hrest.1 s1 hcon
      · rw [runSweep, htmres] at hret
        exact hrest.2 t hret

/-- The outer optimizer loop preserves the invariant: the returned
partition evaluates within the bound. -/
theorem optimizeGo_spec (shape : List Nat) (n0 : Nat) (hn0 : 0 < n0) (B : Rat) :
    ∀ (fuel iter : Nat) (s : OptState),
      s.bestTeams.length = n0 → (evaluateTeams s.bestTeams).score = s.bestScore →
      s.bestScore.toRat ≤ B →
      (optimizeGo shape fuel iter s).1.length = n0 ∧
        ((evaluateTeams (optimizeGo shape fuel iter s).1).score).toRat ≤ B := by
  have hsingleLen : ∀ (t : List (List Player)) (d : Nat × Nat × Nat × Nat),
      t.length = n0 → (applySingle t d).length = n0 :=
    fun t d ht => (applySingle_length t d).trans ht
  have hdoubleLen : ∀ (t : List (List Player)) (d : Nat × Nat × Nat × Nat × Nat × Nat),
      t.length = n0 → (applyDouble t d).length = n0 :=
    fun t d ht => (applyDouble_length t d).trans ht
  intro fuel
  induction fuel with
  | zero =>
    intro iter s hlen hscore hle
    simp only [optimizeGo]
    exact ⟨hlen, hscore ▸ hle⟩
  | succ n ih =>
    intro iter s hlen hscore hle
    rw [optimizeGo]
    split
    · exact ⟨hlen, hscore ▸ hle⟩
    · have hsingle := runSweep_spec n0 hn0 B applySingle hsingleLen
        (singleSwapDescs shape) s hlen hscore hle
      split
      next t heq1 => exact hsingle.2 t heq1
      next s1 heq1 =>
        have hs1 := hsingle.1 s1 heq1
        have hdouble := runSweep_spec n0 hn0 B applyDouble hdoubleLen
          (doubleSwapDescs shape) s1 hs1.1 hs1.2.1 hs1.2.2
        split
        · split
          next t2 heq2 => exact hdouble.2 t2 heq2
          next s2 heq2 =>
            have hs2 := hdouble.1 s2 heq2
            exact ih (iter + 1) s2 hs2.1 hs2.2.1 hs2.2.2
        · exact ih (iter + 1) s1 hs1.1 hs1.2.1 hs1.2.2

/-- Claim C3: on a partition of non-empty equal-size teams of constructor
built players (score the table lookup of the tier, so the deep copy is the
identity), the optimizer never increases the balance score. -/
theorem claim_C3_optimizer_never_increases_score
    (teams : List (List Player)) (ppt : Nat)
    (hne : teams ≠ [])
    (hppt : 0 < ppt)
    (hsz : ∀ team ∈ teams, team.length = ppt)
    (hwf : ∀ team ∈ teams, ∀ p ∈ team, p.clone = p) :
    ((evaluateTeams (optimizeTeams teams)).score).toRat ≤
      ((evaluateTeams teams).score).toRat := by
  have hclone : cloneTeams teams = teams := cloneTeams_eq_self hwf
  have hn0 : 0 < teams.length := List.length_pos.mpr hne
  have H := optimizeGo_spec (List.map (fun t => t.length) teams) teams.length hn0
    (((evaluateTeams teams).score).toRat) 1000 0
    { bestTeams := teams, bestScore := (evaluateTeams teams).score, noImp := 0 }
    rfl rfl (le_refl _)
  unfold optimizeTeams
  rw [hclone]
  dsimp only
  split
  · exact le_refl _
  · exact H.2

/-- Witness for claim C3 at a concrete two-team partition. -/
theorem claim_C3_witness :
    c3Teams ≠ [] ∧ 0 < 1 ∧ (∀ team ∈ c3Teams, team.length = 1) ∧
    (∀ team ∈ c3Teams, ∀ p ∈ team, p.clone = p) ∧
    ((evaluateTeams (optimizeTeams c3Teams)).score).toRat ≤
      ((evaluateTeams c3Teams).score).toRat :=
  ⟨by decide, by decide, by decide, by decide,
    claim_C3_optimizer_never_increases_score c3Teams 1
      (by decide) (by decide) (by decide) (by decide)⟩

/-- The outer loop executes at most fuel iterations. -/
theorem optimizeGo_count (shape : List Nat) :
    ∀ (fuel iter : Nat) (s : OptState), (optimizeGo shape fuel iter s).2 ≤ fuel := by
  intro fuel
  induction fuel with
  | zero => intro iter s; simp [optimizeGo]
  | succ n ih =>
    intro iter s
    rw [optimizeGo]
    split
    · exact Nat.zero_le _
    · split
      next t heq => exact Nat.succ_le_succ (Nat.zero_le n)
      next s1 heq =>
        split
        · split
          next t2 heq2 => exact Nat.succ_le_succ (Nat.zero_le n)
          next s2 heq2 => exact Nat.succ_le_succ (ih (iter + 1) s2)
        · exact Nat.succ_le_succ (ih (iter + 1) s1)

/-- Reaching 100 consecutive non-improving trials stops the loop at once. -/
theorem optimizeGo_noImp_break (shape : List Nat) (fuel iter : Nat) (s : OptState)
    (h : 100 ≤ s.noImp) : optimizeGo shape fuel iter s = (s.bestTeams, 0) := by
  cases fuel with
  | zero => rfl
  | succ n =>
    rw [optimizeGo]
    rw [if_pos h]

/-- Claim C9: the optimizer always terminates (optimizeGo is a total
function of its 1000-iteration fuel); it returns the clone of its input
at once when that clone scores exactly 0; it executes at most 1000 outer
iterations; and a no-improvement counter at 100 or above stops the loop
immediately, whichever bound is hit first. -/
theorem claim_C9_termination_structure :
    (∀ teams : List (List Player), teams ≠ [] →
      ((evaluateTeams (cloneTeams teams)).score).toRat = 0 →
      optimizeTeams teams = cloneTeams teams) ∧
    (∀ teams : List (List Player), optimizeTeamsIterCount teams ≤ 1000) ∧
    (∀ (shape : List Nat) (fuel iter : Nat) (s : OptState), 100 ≤ s.noImp →
      optimizeGo shape fuel iter s = (s.bestTeams, 0)) := by
  refine ⟨?_, ?_, fun shape fuel iter s h => optimizeGo_noImp_break shape fuel iter s h⟩
  · intro teams hne hzero
    have hcpos : 0 < (cloneTeams teams).length := by
      rw [cloneTeams_length]
      exact List.length_pos.mpr hne
    have hden : 0 < ((evaluateTeams (cloneTeams teams)).score).den :=
      evaluateTeams_score_den_pos _ (List.ne_nil_of_length_pos hcpos)
    unfold optimizeTeams
    dsimp only
    rw [if_pos ((Q.isZero_iff hden).mpr hzero)]
  · intro teams
    unfold optimizeTeamsIterCount
    dsimp only
    split
    · exact Nat.zero_le 1000
    · exact optimizeGo_count _ 1000 0 _

end TeamBalancer
